import Mathlib

set_option maxRecDepth 16384

/-!
Verification development for the AS3935 lightning-sensor driver stack
(`lib/i2cflow.py`, `lib/as3935.py`, `app_as3935.py`): a shallow embedding of
the bus retry layer, the sensor register model, the event ring log, the
debounce ISR and the service-loop throttle/keepalive logic, together with
theorems checking the specification's claims against it.

Machine integers: MicroPython integers are unbounded, registers hold bytes
(values 0..255, established by every bus read returning one byte and every
bus write masking with 0xFF).  Times are modelled as integers; the
`time.ticks_diff(a, b)` idiom is modelled as the plain difference `a - b`.
-/

namespace I2CFlow

/-! ## Bus retry layer (`lib/i2cflow.py`, `I2CFlow._with_retry`)

    def _with_retry(self, fn):
        attempts = self._retries + 1
        last_exc = None
        for k in range(attempts):
            try:
                return fn()
            except OSError as e:
                last_exc = e
                if k < attempts - 1 and self._backoff_ms:
                    time.sleep_ms(self._backoff_ms)
        raise I2CError(f"I2C op failed after {attempts} attempt(s): {last_exc}")

The transfer is modelled by a function `fn : Nat → Except ε α` giving the
outcome of the k-th attempt (`ε` is the raw transport error type, OSError).
The embedding additionally records how many times `fn` was invoked and the
total backoff time slept, so that the retry/backoff accounting is provable.
The raised `I2CError` is modelled as the `.error` constructor carrying the
attempt count and the last underlying cause, so a caller can only ever see
a success value or that wrapped error, never a raw `ε`. -/

structure RetryOut (ε α : Type) where
  result : Except (Nat × Option ε) α
  calls : Nat
  sleptMs : Nat
  deriving Repr

/-- The loop body of `_with_retry`, with `fuel = attempts - k` making the
recursion structural.  `k + 1 < attempts` is Python's `k < attempts - 1`
(they agree on all naturals). -/
def withRetryGo (fn : Nat → Except ε α) (backoffMs attempts : Nat) :
    Nat → Nat → Option ε → Nat → Nat → RetryOut ε α
  | 0, _k, lastExc, calls, slept => ⟨.error (attempts, lastExc), calls, slept⟩
  | fuel+1, k, _lastExc, calls, slept =>
    match fn k with
    | .ok a => ⟨.ok a, calls + 1, slept⟩
    | .error e =>
        withRetryGo fn backoffMs attempts fuel (k+1) (some e) (calls + 1)
          (slept + if k + 1 < attempts ∧ backoffMs ≠ 0 then backoffMs else 0)

/-- The entry point `I2CFlow._with_retry` with policy `(retries, backoffMs)`. -/
def _with_retry (retries backoffMs : Nat) (fn : Nat → Except ε α) : RetryOut ε α :=
  withRetryGo fn backoffMs (retries + 1) (retries + 1) 0 none 0 0

/-- Probe transfer that fails on attempts 0 and 1 and succeeds on attempt 2. -/
def retryOkProbe (k : Nat) : Except Nat Nat :=
  if k < 2 then .error k else .ok 42

/-- Probe transfer that fails on every attempt with cause 7. -/
def retryFailProbe (_k : Nat) : Except Nat Nat := .error 7

end I2CFlow

namespace AS3935

/-! ## Register addresses and bit masks (`lib/as3935.py`, top of file) -/

def REG_AFE_GAIN       : Nat := 0x00
def REG_NOISE_WATCHDOG : Nat := 0x01
def REG_SREJ_MINSTRK   : Nat := 0x02
def REG_IRQ_MASK_SRC   : Nat := 0x03
def REG_ENERGY_LSB     : Nat := 0x04
def REG_ENERGY_MID     : Nat := 0x05
def REG_ENERGY_MSB     : Nat := 0x06
def REG_DISTANCE       : Nat := 0x07
def REG_DISPLAY_TUNING : Nat := 0x08

def BIT_POWERDOWN   : Nat := 0x01
def MASK_AFE_GAIN   : Nat := 0b11111 <<< 1
def MASK_NOISE_FLOOR : Nat := 0b111 <<< 4
def MASK_WATCHDOG    : Nat := 0b1111
def MASK_MIN_STRIKES : Nat := 0b11 <<< 4
def MASK_SPIKE_REJ   : Nat := 0b1111
def MASK_LCO_DIVIDER : Nat := 0b11 <<< 6
def BIT_MASK_DIST    : Nat := 1 <<< 5
def MASK_IRQ_SRC     : Nat := 0b1111
def MASK_DISTANCE    : Nat := 0b111111
def MASK_TUN_CAP     : Nat := 0b1111

def AFE_GAIN_INDOOR  : Nat := 0b10010
def AFE_GAIN_OUTDOOR : Nat := 0b01110

/-! ## Interrupt-source classifier (`as3935.py`, `_int_code_to_src`)

    def _int_code_to_src(v):
        if v & 0x8: return 1     # lightning
        if v & 0x4: return 2     # disturber
        if v & 0x1: return 3     # noise
        return 0
-/

def _int_code_to_src (v : Nat) : Nat :=
  if v &&& 0x8 ≠ 0 then 1        -- lightning
  else if v &&& 0x4 ≠ 0 then 2   -- disturber
  else if v &&& 0x1 ≠ 0 then 3   -- noise
  else 0

/-! ## Event ring log (`as3935.py`, `enable_logging` / `_append_log` / `get_log`)

    def enable_logging(self, capacity=128):
        self._log_cap = max(1, int(capacity))
        self._log = []

    def _append_log(self, ev):
        if self._log is None: return
        self._log.append(ev)
        if len(self._log) > self._log_cap:
            del self._log[0]

    def get_log(self, count=None):
        if self._log is None:
            return []
        if count is None or count >= len(self._log):
            return self._log[:]
        return self._log[-int(count):]

Events are kept abstract (`α`).  `get_log` keeps the Python quirk that for
`count = 0` and a non-empty log, `log[-0:]` is the whole list. -/

/-- The ring capacity stored by `enable_logging(capacity)`. -/
def enable_logging_cap (capacity : Int) : Nat := (max 1 capacity).toNat

def _append_log {α : Type} (cap : Nat) (log : List α) (ev : α) : List α :=
  let l := log ++ [ev]
  if cap < l.length then l.drop 1 else l

def get_log {α : Type} (log : List α) (count : Option Nat) : List α :=
  match count with
  | none => log
  | some n =>
      if log.length ≤ n then log
      else if n = 0 then log
      else log.drop (log.length - n)

/-- The log contents after appending the events `evs` in order to a fresh
(empty) log of capacity `cap`. -/
def logOf {α : Type} (cap : Nat) (evs : List α) : List α :=
  evs.foldl (_append_log cap) []

/-! ## Debounced interrupt edge handler (`as3935.py`, `attach_irq`; the ISR in
`app_as3935.py` `AS3935App.attach_irq` is character-for-character the same)

    def _isr(p):
        # keep ISR tiny: set a flag and timestamp, debounce 3ms
        now = time.ticks_ms()
        if not self._irq_pending or time.ticks_diff(now, self._irq_last_ms) > 3:
            self._irq_pending = True
            self._irq_last_ms = now

Times are integers; `ticks_diff(now, last)` is modelled as `now - last`. -/

structure DebounceState where
  pending : Bool
  lastMs : Int
  deriving Repr, DecidableEq

/-- One interrupt edge arriving at time `now`. -/
def _isr (s : DebounceState) (now : Int) : DebounceState :=
  if !s.pending || now - s.lastMs > 3 then ⟨true, now⟩ else s

/-! ## Register-file device model

The sensor behind the bus: a register file plus a count of bus writes
performed (so "no bus write occurs" is statable).  Registers hold bytes;
every write masks with `0xFF` (as `i2cflow.py` does with `bytes([v & 0xFF])`),
and theorems about reads of pre-existing registers carry byte-valuedness
hypotheses. -/

structure Dev where
  regs : Nat → Nat
  writeCount : Nat

/-- Embedding of `I2CFlow.rmw`: read `reg`, replace the `mask` field by `value <<< shift`,
write the result back.

    def op():
        v = self.i2c.readfrom_mem(self._addr, reg, 1)[0]
        v = (v & ~mask) | ((value << shift) & mask)
        self.i2c.writeto_mem(self._addr, reg, bytes([v & 0xFF]))
        return v

For byte-valued `v` and `mask ≤ 0xFF`, Python's `v & ~mask` equals
`v &&& (0xFF ^^^ mask)`. -/
def rmw (d : Dev) (reg mask shift value : Nat) : Dev :=
  let v := d.regs reg
  let v2 := ((v &&& (0xFF ^^^ mask)) ||| ((value <<< shift) &&& mask)) &&& 0xFF
  ⟨fun r => if r = reg then v2 else d.regs r, d.writeCount + 1⟩

/-- Inverse of `MIN_LIGHTNING_MAP` used by `status()`:
`{v:k for k,v in MIN_LIGHTNING_MAP.items()}.get(bits, None)`. -/
def minStrikesDecode (bits : Nat) : Option Nat :=
  if bits = 0b00 then some 1 else if bits = 0b01 then some 5
  else if bits = 0b10 then some 9 else if bits = 0b11 then some 16 else none

/-- Inverse of `DIVIDER_MAP` used by `status()`. -/
def dividerDecode (bits : Nat) : Option Nat :=
  if bits = 0b00 then some 16 else if bits = 0b01 then some 32
  else if bits = 0b10 then some 64 else if bits = 0b11 then some 128 else none

/-- The dictionary returned by `AS3935.status()`. -/
structure StatusSnap where
  powerdown : Nat
  indoors : Nat
  noise : Nat
  watchdog : Nat
  spike_rej : Nat
  min_strikes : Option Nat
  mask_dist : Nat
  lco_div : Option Nat
  tuning_cap_steps : Nat
  tuning_cap_pf : Nat
  deriving Repr, DecidableEq

/-- Embedding of `AS3935.status()`: read registers 0, 1, 2, 3 and 8 and decode the fields
with the masks, exactly as in the source. -/
def status (d : Dev) : StatusSnap :=
  let r0 := d.regs REG_AFE_GAIN
  let r1 := d.regs REG_NOISE_WATCHDOG
  let r2 := d.regs REG_SREJ_MINSTRK
  let r3 := d.regs REG_IRQ_MASK_SRC
  let r8 := d.regs REG_DISPLAY_TUNING
  { powerdown := if r0 &&& BIT_POWERDOWN ≠ 0 then 1 else 0
    indoors := if (r0 &&& MASK_AFE_GAIN) >>> 1 = AFE_GAIN_INDOOR then 1 else 0
    noise := (r1 &&& MASK_NOISE_FLOOR) >>> 4
    watchdog := r1 &&& MASK_WATCHDOG
    spike_rej := r2 &&& MASK_SPIKE_REJ
    min_strikes := minStrikesDecode ((r2 &&& MASK_MIN_STRIKES) >>> 4)
    mask_dist := if r3 &&& BIT_MASK_DIST ≠ 0 then 1 else 0
    lco_div := dividerDecode ((r3 &&& MASK_LCO_DIVIDER) >>> 6)
    tuning_cap_steps := r8 &&& MASK_TUN_CAP
    tuning_cap_pf := (r8 &&& MASK_TUN_CAP) * 8 }

/-! ### Validated setters (`as3935.py`)

    def setNoiseFloorLvl(self, level):
        if not 0 <= level <= 7: raise ValueError("noise level 0..7")
        self._rmw(REG_NOISE_WATCHDOG, MASK_NOISE_FLOOR, 4, level); return self

and analogously for `setWatchdogThreshold` (0..15) and `setSpikeRejection`
(0..15).  A raised `ValueError` is modelled as `some msg` in the second
component, with the device returned unchanged (the raise happens before any
bus access). -/

def setNoiseFloorLvl (d : Dev) (level : Int) : Dev × Option String :=
  if 0 ≤ level ∧ level ≤ 7 then
    (rmw d REG_NOISE_WATCHDOG MASK_NOISE_FLOOR 4 level.toNat, none)
  else (d, some "noise level 0..7")

def setWatchdogThreshold (d : Dev) (level : Int) : Dev × Option String :=
  if 0 ≤ level ∧ level ≤ 15 then
    (rmw d REG_NOISE_WATCHDOG MASK_WATCHDOG 0 level.toNat, none)
  else (d, some "watchdog 0..15")

def setSpikeRejection (d : Dev) (level : Int) : Dev × Option String :=
  if 0 ≤ level ∧ level ≤ 15 then
    (rmw d REG_SREJ_MINSTRK MASK_SPIKE_REJ 0 level.toNat, none)
  else (d, some "spike rejection 0..15")

/-- Embedding of `setTuningCaps`: total — no validation, the step count is clamped.

    def setTuningCaps(self, cap_pf):
        steps = max(0, min(15, (cap_pf // 8)))
        self._rmw(REG_DISPLAY_TUNING, MASK_TUN_CAP, 0, steps)

Python's `//` on ints is floor division, `Int.fdiv`. -/
def setTuningCaps (d : Dev) (cap_pf : Int) : Dev :=
  let steps := max 0 (min 15 (Int.fdiv cap_pf 8))
  rmw d REG_DISPLAY_TUNING MASK_TUN_CAP 0 steps.toNat

/-- Embedding of `getStrikeEnergyRaw`:

    l = self._at().read1(REG_ENERGY_LSB).last
    m = self._at().read1(REG_ENERGY_MID).last
    h = self._at().read1(REG_ENERGY_MSB).last & 0x1F
    return (h << 16) | (m << 8) | l
-/
def getStrikeEnergyRaw (d : Dev) : Nat :=
  let l := d.regs REG_ENERGY_LSB
  let m := d.regs REG_ENERGY_MID
  let h := d.regs REG_ENERGY_MSB &&& 0x1F
  (h <<< 16) ||| (m <<< 8) ||| l

/-- A device whose three energy registers hold `l`, `m`, `h` (for witnesses
and the energy theorems). -/
def energyDev (l m h : Nat) : Dev :=
  ⟨fun r =>
    if r = REG_ENERGY_LSB then l
    else if r = REG_ENERGY_MID then m
    else if r = REG_ENERGY_MSB then h else 0, 0⟩

/-- A device with all registers zero (for witnesses). -/
def dev0 : Dev := ⟨fun _ => 0, 0⟩

end AS3935

namespace App

/-! ## Service loop: throttle and keepalive (`app_as3935.py`, `AS3935App.run`)

    now_ms = time.ticks_ms()
    for ev in events:
        if ev["type"] == "lightning":
            self._publish_state(True, d, e, False, False, retain=True)
            self._last_src = 1
        elif ev["type"] == "disturber":
            if time.ticks_diff(now_ms, self._last_dist_ms) >= self._throttle_dist_ms \
               or self._last_src != 2:
                self._publish_state(False, 0, 0, True, False, retain=True)
                self._last_dist_ms = now_ms
                self._last_src = 2
        elif ev["type"] == "noise":
            ... symmetric with _last_noise_ms / _throttle_noise_ms / 3 ...
    if time.ticks_diff(now_ms, self._last_keepalive_ms) >= self._keepalive_ms:
        self._publish_state(False, 0, 0, False, False, retain=True)
        self._last_keepalive_ms = now_ms

All events of one loop iteration share the `now_ms` captured before the
`for` loop.  `_publish_state(alert, distance, energy, disturber, noise)`
payloads are modelled as `Publication` values in emission order. -/

inductive EvKind
  | lightning (distanceKm energy : Nat)
  | disturber
  | noise
  deriving Repr, DecidableEq

/-- The `_last_src` code the loop assigns when forwarding each kind. -/
def evCode : EvKind → Nat
  | .lightning _ _ => 1
  | .disturber => 2
  | .noise => 3

/-- A `_publish_state` payload. -/
structure Publication where
  alert : Bool
  distance : Nat
  energy : Nat
  disturber : Bool
  noise : Bool
  deriving Repr, DecidableEq

/-- The throttle-relevant fields of `AS3935App`. -/
structure ThrottleSt where
  lastSrc : Nat
  lastDistMs : Int
  lastNoiseMs : Int
  deriving Repr, DecidableEq

/-- Default `self._throttle_dist_ms = 10 * 60 * 1000`. -/
def THROTTLE_DIST_MS : Int := 10 * 60 * 1000
/-- Default `self._throttle_noise_ms = 10 * 60 * 1000`. -/
def THROTTLE_NOISE_MS : Int := 10 * 60 * 1000
/-- Default `self._keepalive_ms = 15 * 60 * 1000`. -/
def KEEPALIVE_MS : Int := 15 * 60 * 1000

/-- Handling of one event inside the `for` loop: returns the updated state
and the publication forwarded for this event, if any. -/
def processEvent (thD thN : Int) (now : Int) (s : ThrottleSt) (ev : EvKind) :
    ThrottleSt × Option Publication :=
  match ev with
  | .lightning d e =>
      ({ s with lastSrc := 1 }, some ⟨true, d, e, false, false⟩)
  | .disturber =>
      if now - s.lastDistMs ≥ thD ∨ s.lastSrc ≠ 2 then
        ({ s with lastDistMs := now, lastSrc := 2 },
          some ⟨false, 0, 0, true, false⟩)
      else (s, none)
  | .noise =>
      if now - s.lastNoiseMs ≥ thN ∨ s.lastSrc ≠ 3 then
        ({ s with lastNoiseMs := now, lastSrc := 3 },
          some ⟨false, 0, 0, false, true⟩)
      else (s, none)

/-- A trace of timed events processed in order (each paired with the
`now_ms` of its loop iteration), returning the final state and the per-event
forwarding decision. -/
def runEvents (thD thN : Int) (s : ThrottleSt) :
    List (Int × EvKind) → ThrottleSt × List (Option Publication)
  | [] => (s, [])
  | (t, ev) :: rest =>
      let p := processEvent thD thN t s ev
      let r := runEvents thD thN p.1 rest
      (r.1, p.2 :: r.2)

/-- Specification-side reading of a decision-annotated trace: the kind code
of the last forwarded event (`init` if none was forwarded). -/
def lastFwdSrc (init : Nat)
    (steps : List ((Int × EvKind) × Option Publication)) : Nat :=
  steps.foldl (fun acc step => if step.2.isSome then evCode step.1.2 else acc)
    init

/-- Specification-side reading: the time of the last forwarded event of kind
code `k` (`init` if none was forwarded). -/
def lastFwdTime (k : Nat) (init : Int)
    (steps : List ((Int × EvKind) × Option Publication)) : Int :=
  steps.foldl (fun acc step =>
    if step.2.isSome ∧ evCode step.1.2 = k then step.1.1 else acc) init

/-- Loop state including the keepalive timestamp. -/
structure LoopSt where
  thr : ThrottleSt
  lastKeepMs : Int
  deriving Repr, DecidableEq

/-- The payload the keepalive branch publishes:
`_publish_state(False, 0, 0, False, False)`. -/
def keepaliveNeutral : Publication := ⟨false, 0, 0, false, false⟩

/-- One full iteration of the `run` loop body at time `now`: process the
batch of events (all sharing `now`), then the keepalive check.  Returns the
new state and the publications emitted, in order. -/
def loopIter (thD thN keepMs : Int) (s : LoopSt) (now : Int)
    (events : List EvKind) : LoopSt × List Publication :=
  let r := runEvents thD thN s.thr (events.map (fun e => (now, e)))
  let pubs := r.2.filterMap id
  if now - s.lastKeepMs ≥ keepMs then
    (⟨r.1, now⟩, pubs ++ [keepaliveNeutral])
  else (⟨r.1, s.lastKeepMs⟩, pubs)

end App

/-! ## Theorems -/

/-- C1: for every 4-bit interrupt-source code, the classifier returns
Lightning (1) whenever bit 3 is set regardless of the other bits; if bit 3 is
clear and bit 2 is set it returns Disturber (2); if bits 3 and 2 are clear and
bit 0 is set it returns Noise (3); every other pattern, including all-zero,
yields no event (0). -/
theorem int_code_classification (v : Fin 16) :
    (v.val.testBit 3 → AS3935._int_code_to_src v.val = 1) ∧
    (¬ v.val.testBit 3 → v.val.testBit 2 → AS3935._int_code_to_src v.val = 2) ∧
    (¬ v.val.testBit 3 → ¬ v.val.testBit 2 → v.val.testBit 0 →
      AS3935._int_code_to_src v.val = 3) ∧
    (¬ v.val.testBit 3 → ¬ v.val.testBit 2 → ¬ v.val.testBit 0 →
      AS3935._int_code_to_src v.val = 0) := by
  revert v; decide

/-- C1 witness: the classifier at the concrete codes 0b1101, 0b0100, 0b0001,
0b0000 and 0b0010. -/
theorem int_code_classification_witness :
    AS3935._int_code_to_src 13 = 1 ∧ AS3935._int_code_to_src 4 = 2 ∧
    AS3935._int_code_to_src 1 = 3 ∧ AS3935._int_code_to_src 0 = 0 ∧
    AS3935._int_code_to_src 2 = 0 :=
  ⟨(int_code_classification 13).1 (by decide),
   (int_code_classification 4).2.1 (by decide) (by decide),
   (int_code_classification 1).2.2.1 (by decide) (by decide) (by decide),
   (int_code_classification 0).2.2.2 (by decide) (by decide) (by decide),
   (int_code_classification 2).2.2.2 (by decide) (by decide) (by decide)⟩

/-! ### Retry-loop lemmas -/

theorem withRetryGo_calls_le {ε α : Type} (fn : Nat → Except ε α) (b att : Nat) :
    ∀ fuel k lastExc calls slept,
      (I2CFlow.withRetryGo fn b att fuel k lastExc calls slept).calls ≤ calls + fuel := by
  intro fuel
  induction fuel with
  | zero => intro k lastExc calls slept; simp [I2CFlow.withRetryGo]
  | succ f ih =>
      intro k lastExc calls slept
      rw [I2CFlow.withRetryGo]
      cases h : fn k with
      | ok a => simp
      | error e =>
          simp only []
          calc (I2CFlow.withRetryGo fn b att f (k+1) (some e) (calls+1)
                  (slept + if k + 1 < att ∧ b ≠ 0 then b else 0)).calls
              ≤ (calls + 1) + f := ih (k+1) (some e) (calls+1) _
            _ ≤ calls + (f + 1) := by omega

theorem withRetryGo_ok {ε α : Type} (fn : Nat → Except ε α) (b att : Nat) :
    ∀ fuel k lastExc calls slept j a,
      k ≤ j → j < k + fuel → k + fuel = att →
      (∀ i, k ≤ i → i < j → ∃ er, fn i = .error er) →
      fn j = .ok a →
      I2CFlow.withRetryGo fn b att fuel k lastExc calls slept =
        ⟨.ok a, calls + (j - k) + 1, slept + (j - k) * b⟩ := by
  intro fuel
  induction fuel with
  | zero => intro k lastExc calls slept j a hkj hjf _ _ _; omega
  | succ f ih =>
      intro k lastExc calls slept j a hkj hjf hatt hfail hok
      rw [I2CFlow.withRetryGo]
      rcases Nat.eq_or_lt_of_le hkj with heq | hlt
      · subst heq
        rw [hok]
        simp
      · obtain ⟨er, her⟩ := hfail k (Nat.le_refl k) hlt
        rw [her]
        simp only []
        rw [ih (k+1) (some er) (calls+1) _ j a hlt (by omega) (by omega)
            (fun i hi hij => hfail i (by omega) hij) hok]
        have hcond : (k + 1 < att ∧ b ≠ 0) ↔ (b ≠ 0) := by
          constructor
          · exact fun h => h.2
          · exact fun h => ⟨by omega, h⟩
        have hsub : j - k = (j - (k+1)) + 1 := by omega
        by_cases hb : b = 0
        · subst hb
          simp
          omega
        · simp only [if_pos (hcond.mpr hb)]
          rw [hsub, Nat.succ_mul]
          congr 1 <;> omega

theorem withRetryGo_err {ε α : Type} (fn : Nat → Except ε α) (b att : Nat) :
    ∀ fuel k lastExc calls slept e,
      1 ≤ fuel → k + fuel = att →
      (∀ i, k ≤ i → i < att → ∃ er, fn i = .error er) →
      fn (att - 1) = .error e →
      I2CFlow.withRetryGo fn b att fuel k lastExc calls slept =
        ⟨.error (att, some e), calls + fuel, slept + (fuel - 1) * b⟩ := by
  intro fuel
  induction fuel with
  | zero => intro k lastExc calls slept e h1 _ _ _; omega
  | succ f ih =>
      intro k lastExc calls slept e _h1 hatt hfail hlast
      rw [I2CFlow.withRetryGo]
      rcases Nat.eq_zero_or_pos f with hf0 | hfpos
      · subst hf0
        have hk : k = att - 1 := by omega
        rw [hk, hlast]
        simp only []
        rw [I2CFlow.withRetryGo]
        have : ¬ (att - 1 + 1 < att ∧ b ≠ 0) := by
          intro h; omega
        rw [if_neg this]
        simp
      · obtain ⟨er, her⟩ := hfail k (Nat.le_refl k) (by omega)
        rw [her]
        simp only []
        rw [ih (k+1) (some er) (calls+1) _ e hfpos (by omega)
            (fun i hi hia => hfail i (by omega) hia) hlast]
        have hcond : k + 1 < att ∧ b ≠ 0 ↔ b ≠ 0 := by
          constructor
          · exact fun h => h.2
          · exact fun h => ⟨by omega, h⟩
        by_cases hb : b = 0
        · subst hb
          simp
          omega
        · simp only [if_pos (hcond.mpr hb)]
          have hsub : f + 1 - 1 = (f - 1) + 1 := by omega
          rw [hsub, Nat.succ_mul]
          congr 1 <;> omega

theorem withRetryGo_err_attempts {ε α : Type} (fn : Nat → Except ε α) (b att : Nat) :
    ∀ fuel k lastExc calls slept p,
      (I2CFlow.withRetryGo fn b att fuel k lastExc calls slept).result = .error p →
      p.1 = att := by
  intro fuel
  induction fuel with
  | zero =>
      intro k lastExc calls slept p h
      rw [I2CFlow.withRetryGo] at h
      simp only [Except.error.injEq] at h
      rw [← h]
  | succ f ih =>
      intro k lastExc calls slept p h
      rw [I2CFlow.withRetryGo] at h
      cases hk : fn k with
      | ok a => rw [hk] at h; simp at h
      | error e =>
          rw [hk] at h
          exact ih (k+1) (some e) (calls+1) _ p h

/-- C2: every bus operation issued with policy `(retries, backoffMs)` invokes
the underlying transfer at most `retries+1` times; when the transfer first
succeeds on attempt `j` (0-indexed, after `j` failures) the operation succeeds
with `j+1` attempts made and exactly `j` backoff sleeps (`j * backoffMs` total
slept — one after each failed attempt, none after the final one); when all
`retries+1` attempts fail, the result is exactly one wrapped bus error
carrying the attempt count `retries+1` and the last underlying cause, with
only `retries` backoff sleeps (none after the final failure); and any error
the caller sees is the wrapped kind reporting `retries+1` attempts — never the
raw transport error type, which the result type confines to the `cause`
field. -/
theorem with_retry_spec {ε α : Type} (retries backoffMs : Nat)
    (fn : Nat → Except ε α) :
    ((I2CFlow._with_retry retries backoffMs fn).calls ≤ retries + 1) ∧
    (∀ j a, j ≤ retries → (∀ i, i < j → ∃ er, fn i = .error er) → fn j = .ok a →
      I2CFlow._with_retry retries backoffMs fn =
        ⟨.ok a, j + 1, j * backoffMs⟩) ∧
    (∀ e, (∀ i, i ≤ retries → ∃ er, fn i = .error er) → fn retries = .error e →
      I2CFlow._with_retry retries backoffMs fn =
        ⟨.error (retries + 1, some e), retries + 1, retries * backoffMs⟩) ∧
    (∀ p, (I2CFlow._with_retry retries backoffMs fn).result = .error p →
      p.1 = retries + 1) := by
  refine ⟨?_, ?_, ?_, ?_⟩
  · have h := withRetryGo_calls_le fn backoffMs (retries+1) (retries+1) 0 none 0 0
    simpa [I2CFlow._with_retry] using h
  · intro j a hj hfail hok
    have h := withRetryGo_ok fn backoffMs (retries+1) (retries+1) 0 none 0 0 j a
      (Nat.zero_le j) (by omega) (by omega)
      (fun i _ hij => hfail i hij) hok
    simpa [I2CFlow._with_retry] using h
  · intro e hfail hlast
    have h := withRetryGo_err fn backoffMs (retries+1) (retries+1) 0 none 0 0 e
      (by omega) (by omega)
      (fun i _ hia => hfail i (by omega))
      (by simpa using hlast)
    simpa [I2CFlow._with_retry] using h
  · intro p hp
    simp only [I2CFlow._with_retry] at hp
    exact withRetryGo_err_attempts fn backoffMs (retries+1) (retries+1) 0 none 0 0 p hp

/-- C2 witness: with policy `retries = 2`, `backoffMs = 5`, a transfer failing
twice then succeeding yields success with 3 calls and 10 ms total backoff; a
transfer failing on all three attempts yields the wrapped error reporting
3 attempts with cause 7 and 10 ms total backoff. -/
theorem with_retry_spec_witness :
    I2CFlow._with_retry 2 5 I2CFlow.retryOkProbe = ⟨.ok 42, 3, 10⟩ ∧
    I2CFlow._with_retry 2 5 I2CFlow.retryFailProbe =
      ⟨.error (3, some 7), 3, 10⟩ :=
  ⟨(with_retry_spec 2 5 I2CFlow.retryOkProbe).2.1 2 42 (by decide)
      (fun i hi => ⟨i, by simp [I2CFlow.retryOkProbe, hi]⟩) rfl,
   (with_retry_spec 2 5 I2CFlow.retryFailProbe).2.2.1 7
      (fun i _ => ⟨7, rfl⟩) rfl⟩

/-! ### Ring-log lemmas -/

theorem append_log_eq {α : Type} (cap : Nat) (_hc : 1 ≤ cap) (l : List α)
    (hl : l.length ≤ cap) (e : α) :
    AS3935._append_log cap l e = (l ++ [e]).drop (l.length + 1 - cap) := by
  unfold AS3935._append_log
  simp only [List.length_append, List.length_cons, List.length_nil, Nat.zero_add]
  by_cases h : cap < l.length + 1
  · rw [if_pos h]
    have hd : l.length + 1 - cap = 1 := by omega
    rw [hd]
  · rw [if_neg h]
    have hd : l.length + 1 - cap = 0 := by omega
    rw [hd, List.drop_zero]

theorem append_log_length_le {α : Type} (cap : Nat) (hc : 1 ≤ cap) (l : List α)
    (hl : l.length ≤ cap) (e : α) :
    (AS3935._append_log cap l e).length ≤ cap := by
  rw [append_log_eq cap hc l hl e]
  simp only [List.length_drop, List.length_append, List.length_cons,
    List.length_nil, Nat.zero_add]
  omega

theorem logOf_go {α : Type} (cap : Nat) (hc : 1 ≤ cap) :
    ∀ (evs l : List α), l.length ≤ cap →
      evs.foldl (AS3935._append_log cap) l =
        (l ++ evs).drop (l.length + evs.length - cap) := by
  intro evs
  induction evs with
  | nil =>
      intro l hl
      simp only [List.foldl_nil, List.append_nil, List.length_nil, Nat.add_zero,
        Nat.sub_eq_zero_of_le hl, List.drop_zero]
  | cons e evs ih =>
      intro l hl
      rw [List.foldl_cons, append_log_eq cap hc l hl e]
      have hlen : ((l ++ [e]).drop (l.length + 1 - cap)).length ≤ cap := by
        simp only [List.length_drop, List.length_append, List.length_cons,
          List.length_nil, Nat.zero_add]
        omega
      rw [ih _ hlen]
      have hx : ((l ++ [e]).drop (l.length + 1 - cap)) ++ evs =
          ((l ++ [e]) ++ evs).drop (l.length + 1 - cap) := by
        conv_rhs => rw [List.drop_append_eq_append_drop]
        have h0 : l.length + 1 - cap - (l ++ [e]).length = 0 := by
          simp only [List.length_append, List.length_cons, List.length_nil,
            Nat.zero_add]
          omega
        rw [h0, List.drop_zero]
      rw [hx, List.drop_drop]
      have hlist : (l ++ [e]) ++ evs = l ++ e :: evs := by simp
      rw [hlist]
      congr 1
      simp only [List.length_drop, List.length_append, List.length_cons,
        List.length_nil, Nat.zero_add]
      omega

theorem logOf_eq_drop {α : Type} (cap : Nat) (hc : 1 ≤ cap) (evs : List α) :
    AS3935.logOf cap evs = evs.drop (evs.length - cap) := by
  unfold AS3935.logOf
  have h := logOf_go cap hc evs [] (by simp)
  simpa using h

/-- C3: for every configured capacity (always at least 1) and every sequence of
appended events, the ring log's length never exceeds the capacity; the oldest
events are the ones evicted (the log is exactly the most recent suffix of the
input); after inserting `capacity + k` events, `tail(capacity)` returns
exactly the most recent `capacity` events in oldest-to-newest arrival order;
and `tail(n)` with `n` at least the current log size returns all logged
events. -/
theorem ring_log_spec {α : Type} (cap : Nat) (hc : 1 ≤ cap) (evs : List α) :
    (AS3935.logOf cap evs).length ≤ cap ∧
    AS3935.logOf cap evs = evs.drop (evs.length - cap) ∧
    (∀ k, evs.length = cap + k →
      AS3935.get_log (AS3935.logOf cap evs) (some cap) = evs.drop k) ∧
    (∀ n, (AS3935.logOf cap evs).length ≤ n →
      AS3935.get_log (AS3935.logOf cap evs) (some n) = AS3935.logOf cap evs) := by
  have hdrop := logOf_eq_drop cap hc evs
  have hlen : (AS3935.logOf cap evs).length ≤ cap := by
    rw [hdrop]
    simp only [List.length_drop]
    omega
  refine ⟨hlen, hdrop, ?_, ?_⟩
  · intro k hk
    have h1 : AS3935.get_log (AS3935.logOf cap evs) (some cap) =
        AS3935.logOf cap evs := by
      simp [AS3935.get_log, hlen]
    rw [h1, hdrop, hk]
    congr 1
    omega
  · intro n hn
    simp [AS3935.get_log, hn]

/-- C3 witness: capacity 3 with five events appended; the log holds the last
three events, within capacity, and an oversized `tail` returns everything. -/
theorem ring_log_spec_witness :
    (AS3935.logOf 3 [1, 2, 3, 4, 5]).length ≤ 3 ∧
    AS3935.get_log (AS3935.logOf 3 [1, 2, 3, 4, 5]) (some 3) = [3, 4, 5] ∧
    AS3935.get_log (AS3935.logOf 3 [1, 2, 3, 4, 5]) (some 10) =
      AS3935.logOf 3 [1, 2, 3, 4, 5] := by
  have h := ring_log_spec 3 (by decide) [1, 2, 3, 4, 5]
  refine ⟨h.1, ?_, h.2.2.2 10 (by exact le_trans h.1 (by decide))⟩
  rw [h.2.2.1 2 rfl]
  decide

/-- C10: for every capacity argument to `enable_logging`, including zero and
negative values, the stored ring capacity is `max 1 capacity`: it is always at
least 1 (logging is neither disabled nor unbounded), a non-positive capacity
yields capacity 1, a positive capacity is kept as is, and with a non-positive
argument the ring retains exactly the single most recent event. -/
theorem enable_logging_spec (c : Int) :
    1 ≤ AS3935.enable_logging_cap c ∧
    (c ≤ 0 → AS3935.enable_logging_cap c = 1) ∧
    (0 < c → (AS3935.enable_logging_cap c : Int) = c) ∧
    (c ≤ 0 → ∀ (α : Type) (evs : List α) (e : α),
      AS3935.logOf (AS3935.enable_logging_cap c) (evs ++ [e]) = [e]) := by
  have hcap1 : c ≤ 0 → AS3935.enable_logging_cap c = 1 := by
    intro hc
    unfold AS3935.enable_logging_cap
    have hm : max 1 c = 1 := by omega
    rw [hm]
    rfl
  refine ⟨?_, hcap1, ?_, ?_⟩
  · unfold AS3935.enable_logging_cap
    omega
  · intro hc
    unfold AS3935.enable_logging_cap
    have hm : max 1 c = c := by omega
    rw [hm]
    omega
  · intro hc α evs e
    rw [hcap1 hc, logOf_eq_drop 1 (by omega) (evs ++ [e])]
    have hlen : (evs ++ [e]).length - 1 = evs.length := by
      simp
    rw [hlen]
    simp

/-- C10 witness: `enable_logging(-3)` yields capacity 1 and a ring that keeps
only the most recent of three appended events. -/
theorem enable_logging_spec_witness :
    AS3935.enable_logging_cap (-3) = 1 ∧
    AS3935.logOf (AS3935.enable_logging_cap (-3)) ([10, 20] ++ [30]) = [30] :=
  ⟨(enable_logging_spec (-3)).2.1 (by decide),
   (enable_logging_spec (-3)).2.2.2 (by decide) Nat [10, 20] 30⟩

/-- C6: the edge handler sets the pending flag and records the edge timestamp
exactly when no capture is pending or more than the 3 ms debounce window has
elapsed since the last recorded edge, and otherwise changes nothing;
consequently two edges within the debounce window collapse into a single
pending capture (the second edge changes neither the flag nor the timestamp),
while two edges separated by more than the window each produce their own
capture with their own timestamp. -/
theorem isr_debounce_spec :
    (∀ (s : AS3935.DebounceState) (now : Int),
      s.pending = false ∨ now - s.lastMs > 3 →
        AS3935._isr s now = ⟨true, now⟩) ∧
    (∀ (s : AS3935.DebounceState) (now : Int),
      s.pending = true → now - s.lastMs ≤ 3 → AS3935._isr s now = s) ∧
    (∀ (s₀ : AS3935.DebounceState) (t₁ t₂ : Int), s₀.pending = false →
      t₂ - t₁ ≤ 3 →
      AS3935._isr (AS3935._isr s₀ t₁) t₂ = ⟨true, t₁⟩) ∧
    (∀ (s₀ : AS3935.DebounceState) (t₁ t₂ : Int), s₀.pending = false →
      t₂ - t₁ > 3 →
      AS3935._isr s₀ t₁ = ⟨true, t₁⟩ ∧
      AS3935._isr (AS3935._isr s₀ t₁) t₂ = ⟨true, t₂⟩) := by
  have harm : ∀ (s : AS3935.DebounceState) (now : Int),
      s.pending = false ∨ now - s.lastMs > 3 →
        AS3935._isr s now = ⟨true, now⟩ := by
    intro s now h
    rcases h with h | h
    · simp [AS3935._isr, h]
    · simp [AS3935._isr, h]
  have hhold : ∀ (s : AS3935.DebounceState) (now : Int),
      s.pending = true → now - s.lastMs ≤ 3 → AS3935._isr s now = s := by
    intro s now hp ht
    have hle : ¬ (now - s.lastMs > 3) := by omega
    simp [AS3935._isr, hp, hle]
  refine ⟨harm, hhold, ?_, ?_⟩
  · intro s₀ t₁ t₂ hp ht
    rw [harm s₀ t₁ (Or.inl hp)]
    exact hhold ⟨true, t₁⟩ t₂ rfl ht
  · intro s₀ t₁ t₂ hp ht
    refine ⟨harm s₀ t₁ (Or.inl hp), ?_⟩
    rw [harm s₀ t₁ (Or.inl hp)]
    exact harm ⟨true, t₁⟩ t₂ (Or.inr ht)

/-- C6 witness: edges at 10 ms and 11 ms collapse into one capture stamped at
10 ms; edges at 10 ms and 20 ms produce two captures with their own stamps. -/
theorem isr_debounce_spec_witness :
    AS3935._isr (AS3935._isr ⟨false, 0⟩ 10) 11 = ⟨true, 10⟩ ∧
    AS3935._isr (AS3935._isr ⟨false, 0⟩ 10) 20 = ⟨true, 20⟩ :=
  ⟨isr_debounce_spec.2.2.1 ⟨false, 0⟩ 10 11 rfl (by decide),
   (isr_debounce_spec.2.2.2 ⟨false, 0⟩ 10 20 rfl (by decide)).2⟩

/-! ### Register round-trip lemmas: a field written via `rmw` is read back
exactly by `status`, for byte-valued registers. -/

theorem status_noise_rmw (d : AS3935.Dev) (x : Nat)
    (hb : d.regs AS3935.REG_NOISE_WATCHDOG < 256) (hx : x < 8) :
    (AS3935.status (AS3935.rmw d AS3935.REG_NOISE_WATCHDOG
      AS3935.MASK_NOISE_FLOOR 4 x)).noise = x := by
  have key : ∀ v < 256, ∀ y < 8,
      ((((v &&& (0xFF ^^^ AS3935.MASK_NOISE_FLOOR)) |||
        ((y <<< 4) &&& AS3935.MASK_NOISE_FLOOR)) &&& 0xFF) &&&
          AS3935.MASK_NOISE_FLOOR) >>> 4 = y := by decide
  simp only [AS3935.status, AS3935.rmw, AS3935.REG_NOISE_WATCHDOG,
    AS3935.REG_AFE_GAIN, AS3935.REG_SREJ_MINSTRK, AS3935.REG_IRQ_MASK_SRC,
    AS3935.REG_DISPLAY_TUNING]
  norm_num
  exact key _ hb x hx

theorem status_watchdog_rmw (d : AS3935.Dev) (x : Nat)
    (hb : d.regs AS3935.REG_NOISE_WATCHDOG < 256) (hx : x < 16) :
    (AS3935.status (AS3935.rmw d AS3935.REG_NOISE_WATCHDOG
      AS3935.MASK_WATCHDOG 0 x)).watchdog = x := by
  have key : ∀ v < 256, ∀ y < 16,
      (((v &&& (0xFF ^^^ AS3935.MASK_WATCHDOG)) |||
        ((y <<< 0) &&& AS3935.MASK_WATCHDOG)) &&& 0xFF) &&&
          AS3935.MASK_WATCHDOG = y := by decide
  simp only [AS3935.status, AS3935.rmw, AS3935.REG_NOISE_WATCHDOG,
    AS3935.REG_AFE_GAIN, AS3935.REG_SREJ_MINSTRK, AS3935.REG_IRQ_MASK_SRC,
    AS3935.REG_DISPLAY_TUNING]
  norm_num
  exact key _ hb x hx

theorem status_spike_rmw (d : AS3935.Dev) (x : Nat)
    (hb : d.regs AS3935.REG_SREJ_MINSTRK < 256) (hx : x < 16) :
    (AS3935.status (AS3935.rmw d AS3935.REG_SREJ_MINSTRK
      AS3935.MASK_SPIKE_REJ 0 x)).spike_rej = x := by
  have key : ∀ v < 256, ∀ y < 16,
      (((v &&& (0xFF ^^^ AS3935.MASK_SPIKE_REJ)) |||
        ((y <<< 0) &&& AS3935.MASK_SPIKE_REJ)) &&& 0xFF) &&&
          AS3935.MASK_SPIKE_REJ = y := by decide
  simp only [AS3935.status, AS3935.rmw, AS3935.REG_NOISE_WATCHDOG,
    AS3935.REG_AFE_GAIN, AS3935.REG_SREJ_MINSTRK, AS3935.REG_IRQ_MASK_SRC,
    AS3935.REG_DISPLAY_TUNING]
  norm_num
  exact key _ hb x hx

theorem status_tuning_rmw (d : AS3935.Dev) (x : Nat)
    (hb : d.regs AS3935.REG_DISPLAY_TUNING < 256) (hx : x < 16) :
    (AS3935.status (AS3935.rmw d AS3935.REG_DISPLAY_TUNING
      AS3935.MASK_TUN_CAP 0 x)).tuning_cap_steps = x := by
  have key : ∀ v < 256, ∀ y < 16,
      (((v &&& (0xFF ^^^ AS3935.MASK_TUN_CAP)) |||
        ((y <<< 0) &&& AS3935.MASK_TUN_CAP)) &&& 0xFF) &&&
          AS3935.MASK_TUN_CAP = y := by decide
  simp only [AS3935.status, AS3935.rmw, AS3935.REG_NOISE_WATCHDOG,
    AS3935.REG_AFE_GAIN, AS3935.REG_SREJ_MINSTRK, AS3935.REG_IRQ_MASK_SRC,
    AS3935.REG_DISPLAY_TUNING]
  norm_num
  exact key _ hb x hx

/-- C7: for every level inside the documented range, `setNoiseFloorLvl` (0–7),
`setWatchdogThreshold` (0–15) and `setSpikeRejection` (0–15) succeed and a
subsequent `status()` read reflects exactly that value; for every level
outside the range (negative or too large) the call fails with the validation
error before any bus write occurs — the device, register file and bus write
count included, is returned unchanged. -/
theorem set_levels_spec (d : AS3935.Dev) (level : Int)
    (hb1 : d.regs AS3935.REG_NOISE_WATCHDOG < 256)
    (hb2 : d.regs AS3935.REG_SREJ_MINSTRK < 256) :
    (0 ≤ level ∧ level ≤ 7 →
      (AS3935.setNoiseFloorLvl d level).2 = none ∧
      (AS3935.status (AS3935.setNoiseFloorLvl d level).1).noise = level.toNat) ∧
    (¬(0 ≤ level ∧ level ≤ 7) →
      AS3935.setNoiseFloorLvl d level = (d, some "noise level 0..7")) ∧
    (0 ≤ level ∧ level ≤ 15 →
      (AS3935.setWatchdogThreshold d level).2 = none ∧
      (AS3935.status (AS3935.setWatchdogThreshold d level).1).watchdog =
        level.toNat) ∧
    (¬(0 ≤ level ∧ level ≤ 15) →
      AS3935.setWatchdogThreshold d level = (d, some "watchdog 0..15")) ∧
    (0 ≤ level ∧ level ≤ 15 →
      (AS3935.setSpikeRejection d level).2 = none ∧
      (AS3935.status (AS3935.setSpikeRejection d level).1).spike_rej =
        level.toNat) ∧
    (¬(0 ≤ level ∧ level ≤ 15) →
      AS3935.setSpikeRejection d level = (d, some "spike rejection 0..15")) := by
  refine ⟨?_, ?_, ?_, ?_, ?_, ?_⟩
  · intro h
    simp only [AS3935.setNoiseFloorLvl, if_pos h]
    exact ⟨by simp, status_noise_rmw d level.toNat hb1 (by omega)⟩
  · intro h
    simp only [AS3935.setNoiseFloorLvl, if_neg h]
  · intro h
    simp only [AS3935.setWatchdogThreshold, if_pos h]
    exact ⟨by simp, status_watchdog_rmw d level.toNat hb1 (by omega)⟩
  · intro h
    simp only [AS3935.setWatchdogThreshold, if_neg h]
  · intro h
    simp only [AS3935.setSpikeRejection, if_pos h]
    exact ⟨by simp, status_spike_rmw d level.toNat hb2 (by omega)⟩
  · intro h
    simp only [AS3935.setSpikeRejection, if_neg h]

/-- C7 witness: on an all-zero device, `setNoiseFloorLvl 5`,
`setWatchdogThreshold 9` and `setSpikeRejection 14` succeed and read back
exactly; `setNoiseFloorLvl 8`, `setWatchdogThreshold (-1)` and
`setSpikeRejection 16` fail with the validation error and leave the device
untouched. -/
theorem set_levels_spec_witness :
    ((AS3935.setNoiseFloorLvl AS3935.dev0 5).2 = none ∧
      (AS3935.status (AS3935.setNoiseFloorLvl AS3935.dev0 5).1).noise = 5) ∧
    ((AS3935.setWatchdogThreshold AS3935.dev0 9).2 = none ∧
      (AS3935.status (AS3935.setWatchdogThreshold AS3935.dev0 9).1).watchdog = 9) ∧
    ((AS3935.setSpikeRejection AS3935.dev0 14).2 = none ∧
      (AS3935.status (AS3935.setSpikeRejection AS3935.dev0 14).1).spike_rej = 14) ∧
    AS3935.setNoiseFloorLvl AS3935.dev0 8 =
      (AS3935.dev0, some "noise level 0..7") ∧
    AS3935.setWatchdogThreshold AS3935.dev0 (-1) =
      (AS3935.dev0, some "watchdog 0..15") ∧
    AS3935.setSpikeRejection AS3935.dev0 16 =
      (AS3935.dev0, some "spike rejection 0..15") := by
  have h5 := (set_levels_spec AS3935.dev0 5 (by decide) (by decide)).1
    ⟨by decide, by decide⟩
  have h9 := (set_levels_spec AS3935.dev0 9 (by decide) (by decide)).2.2.1
    ⟨by decide, by decide⟩
  have h14 := (set_levels_spec AS3935.dev0 14 (by decide) (by decide)).2.2.2.2.1
    ⟨by decide, by decide⟩
  have h8 := (set_levels_spec AS3935.dev0 8 (by decide) (by decide)).2.1
    (by decide)
  have hm1 := (set_levels_spec AS3935.dev0 (-1) (by decide) (by decide)).2.2.2.1
    (by decide)
  have h16 := (set_levels_spec AS3935.dev0 16 (by decide) (by decide)).2.2.2.2.2
    (by decide)
  exact ⟨⟨h5.1, by simpa using h5.2⟩, ⟨h9.1, by simpa using h9.2⟩,
    ⟨h14.1, by simpa using h14.2⟩, h8, hm1, h16⟩

/-- C8: for every integer `cap_pf`, `setTuningCaps` never raises — it always
performs exactly one bus write — writing the step value `cap_pf` floor-divided
by 8 and clamped to `[0, 15]` into the tuning-cap field; a subsequent
`status()` read reports `tuning_cap_steps` equal to that clamped value and
`tuning_cap_pf` equal to the steps times 8. -/
theorem setTuningCaps_spec (d : AS3935.Dev) (cap_pf : Int)
    (hb : d.regs AS3935.REG_DISPLAY_TUNING < 256) :
    (AS3935.setTuningCaps d cap_pf).writeCount = d.writeCount + 1 ∧
    ((AS3935.status (AS3935.setTuningCaps d cap_pf)).tuning_cap_steps : Int) =
      max 0 (min 15 (Int.fdiv cap_pf 8)) ∧
    (AS3935.status (AS3935.setTuningCaps d cap_pf)).tuning_cap_pf =
      (AS3935.status (AS3935.setTuningCaps d cap_pf)).tuning_cap_steps * 8 := by
  have h0 : 0 ≤ max 0 (min 15 (Int.fdiv cap_pf 8)) := le_max_left 0 _
  have h15 : max 0 (min 15 (Int.fdiv cap_pf 8)) ≤ 15 :=
    max_le (by norm_num) (min_le_left _ _)
  have hlt : (max 0 (min 15 (Int.fdiv cap_pf 8))).toNat < 16 := by omega
  have hsteps := status_tuning_rmw d (max 0 (min 15 (Int.fdiv cap_pf 8))).toNat
    hb hlt
  refine ⟨rfl, ?_, rfl⟩
  show ((AS3935.status (AS3935.rmw d AS3935.REG_DISPLAY_TUNING
    AS3935.MASK_TUN_CAP 0
    (max 0 (min 15 (Int.fdiv cap_pf 8))).toNat)).tuning_cap_steps : Int) = _
  rw [hsteps]
  exact Int.toNat_of_nonneg h0

/-- C8 witness: on an all-zero device, `setTuningCaps 96` reads back as
`steps = 12`, `pf = 96`; `setTuningCaps 200` clamps to `steps = 15`,
`pf = 120`; each performs one bus write. -/
theorem setTuningCaps_spec_witness :
    (AS3935.status (AS3935.setTuningCaps AS3935.dev0 96)).tuning_cap_steps = 12 ∧
    (AS3935.status (AS3935.setTuningCaps AS3935.dev0 96)).tuning_cap_pf = 96 ∧
    (AS3935.status (AS3935.setTuningCaps AS3935.dev0 200)).tuning_cap_steps = 15 ∧
    (AS3935.status (AS3935.setTuningCaps AS3935.dev0 200)).tuning_cap_pf = 120 ∧
    (AS3935.setTuningCaps AS3935.dev0 200).writeCount =
      AS3935.dev0.writeCount + 1 := by
  have h96 := setTuningCaps_spec AS3935.dev0 96 (by decide)
  have h200 := setTuningCaps_spec AS3935.dev0 200 (by decide)
  have e96 : max 0 (min 15 (Int.fdiv 96 8)) = 12 := by decide
  have e200 : max 0 (min 15 (Int.fdiv 200 8)) = 15 := by decide
  have s96 : (AS3935.status (AS3935.setTuningCaps AS3935.dev0 96)).tuning_cap_steps
      = 12 := by
    have := h96.2.1
    rw [e96] at this
    exact_mod_cast this
  have s200 : (AS3935.status (AS3935.setTuningCaps AS3935.dev0 200)).tuning_cap_steps
      = 15 := by
    have := h200.2.1
    rw [e200] at this
    exact_mod_cast this
  refine ⟨s96, ?_, s200, ?_, h200.1⟩
  · rw [h96.2.2, s96]
  · rw [h200.2.2, s200]

/-- C9: for all byte values LSB, MID and any MSB, the raw-energy accessor
returns `((MSB &&& 0x1F) <<< 16) ||| (MID <<< 8) ||| LSB`, a value below
`2 ^ 21` whose result depends only on the low 5 bits of MSB (the top 3 bits
are ignored regardless of their value). -/
theorem energy_raw_spec (l m h : Nat) (hl : l < 256) (hm : m < 256) :
    AS3935.getStrikeEnergyRaw (AS3935.energyDev l m h) =
      ((h &&& 0x1F) <<< 16) ||| (m <<< 8) ||| l ∧
    AS3935.getStrikeEnergyRaw (AS3935.energyDev l m h) < 2 ^ 21 ∧
    (∀ h₂, h &&& 0x1F = h₂ &&& 0x1F →
      AS3935.getStrikeEnergyRaw (AS3935.energyDev l m h) =
        AS3935.getStrikeEnergyRaw (AS3935.energyDev l m h₂)) := by
  have hform : AS3935.getStrikeEnergyRaw (AS3935.energyDev l m h) =
      ((h &&& 0x1F) <<< 16) ||| (m <<< 8) ||| l := rfl
  refine ⟨hform, ?_, ?_⟩
  · rw [hform]
    have hh : (h &&& 0x1F) <<< 16 < 2 ^ 21 := by
      have : h &&& 0x1F ≤ 0x1F := Nat.and_le_right
      rw [Nat.shiftLeft_eq]
      calc (h &&& 0x1F) * 2 ^ 16 ≤ 0x1F * 2 ^ 16 :=
            Nat.mul_le_mul_right _ this
        _ < 2 ^ 21 := by norm_num
    have hmm : m <<< 8 < 2 ^ 21 := by
      rw [Nat.shiftLeft_eq]
      calc m * 2 ^ 8 < 256 * 2 ^ 8 := by
            have h28 : (0:Nat) < 2 ^ 8 := by norm_num
            exact (Nat.mul_lt_mul_right h28).mpr hm
        _ ≤ 2 ^ 21 := by norm_num
    exact Nat.or_lt_two_pow (Nat.or_lt_two_pow hh hmm) (by omega)
  · intro h₂ hlow
    have hform₂ : AS3935.getStrikeEnergyRaw (AS3935.energyDev l m h₂) =
        ((h₂ &&& 0x1F) <<< 16) ||| (m <<< 8) ||| l := rfl
    rw [hform, hform₂, hlow]

/-- C9 witness: LSB = 0xFF, MID = 0xFF, MSB = 0x1F yields 0x1FFFFF (21 bits
all set), and MSB = 0xFF — same low 5 bits, top 3 bits set — yields exactly
the same value. -/
theorem energy_raw_spec_witness :
    AS3935.getStrikeEnergyRaw (AS3935.energyDev 0xFF 0xFF 0x1F) = 0x1FFFFF ∧
    AS3935.getStrikeEnergyRaw (AS3935.energyDev 0xFF 0xFF 0xFF) = 0x1FFFFF := by
  have h := energy_raw_spec 0xFF 0xFF 0x1F (by decide) (by decide)
  have hsame := h.2.2 0xFF (by decide)
  constructor
  · rw [h.1]
    decide
  · rw [← hsame, h.1]
    decide

/-! ### Service-loop throttle lemmas -/

theorem processEvent_state (thD thN now : Int) (s : App.ThrottleSt)
    (ev : App.EvKind) :
    (App.processEvent thD thN now s ev).1.lastSrc =
      (if (App.processEvent thD thN now s ev).2.isSome then App.evCode ev
        else s.lastSrc) ∧
    (App.processEvent thD thN now s ev).1.lastDistMs =
      (if (App.processEvent thD thN now s ev).2.isSome ∧ App.evCode ev = 2
        then now else s.lastDistMs) ∧
    (App.processEvent thD thN now s ev).1.lastNoiseMs =
      (if (App.processEvent thD thN now s ev).2.isSome ∧ App.evCode ev = 3
        then now else s.lastNoiseMs) := by
  cases ev with
  | lightning d e => simp [App.processEvent, App.evCode]
  | disturber =>
      by_cases hc : now - s.lastDistMs ≥ thD ∨ s.lastSrc ≠ 2
      · simp [App.processEvent, App.evCode, if_pos hc]
      · simp [App.processEvent, App.evCode, if_neg hc]
  | noise =>
      by_cases hc : now - s.lastNoiseMs ≥ thN ∨ s.lastSrc ≠ 3
      · simp [App.processEvent, App.evCode, if_pos hc]
      · simp [App.processEvent, App.evCode, if_neg hc]

theorem runEvents_state (thD thN : Int) :
    ∀ (tr : List (Int × App.EvKind)) (s : App.ThrottleSt),
      (App.runEvents thD thN s tr).1.lastSrc =
        App.lastFwdSrc s.lastSrc (tr.zip (App.runEvents thD thN s tr).2) ∧
      (App.runEvents thD thN s tr).1.lastDistMs =
        App.lastFwdTime 2 s.lastDistMs (tr.zip (App.runEvents thD thN s tr).2) ∧
      (App.runEvents thD thN s tr).1.lastNoiseMs =
        App.lastFwdTime 3 s.lastNoiseMs (tr.zip (App.runEvents thD thN s tr).2) := by
  intro tr
  induction tr with
  | nil =>
      intro s
      simp [App.runEvents, App.lastFwdSrc, App.lastFwdTime]
  | cons head rest ih =>
      intro s
      obtain ⟨t, ev⟩ := head
      obtain ⟨hsrc, hdist, hnoise⟩ := processEvent_state thD thN t s ev
      simp only [App.runEvents, List.zip_cons_cons, App.lastFwdSrc,
        App.lastFwdTime, List.foldl_cons]
      rw [← hsrc, ← hdist, ← hnoise]
      exact ih (App.processEvent thD thN t s ev).1

/-- C4: in the service loop, every Lightning event is forwarded to the
publish sink (as the alert-ON payload); a Disturber or Noise event is
forwarded if and only if the last forwarded event was of a different kind or
at least the throttle window has elapsed since the last forwarded event of
that same kind — where `lastSrc` is, by the state-correspondence conjunct,
exactly the kind code of the last forwarded event and `lastDistMs` /
`lastNoiseMs` exactly the time of the last forwarded event of that kind; in
particular, with the default 10-minute window, of two consecutive Disturber
events inside the window only the first is forwarded and a third Disturber
arriving after the window elapses is forwarded again. -/
theorem run_throttle_spec (thD thN : Int) :
    (∀ (now : Int) (s : App.ThrottleSt) (d e : Nat),
      (App.processEvent thD thN now s (.lightning d e)).2 =
        some ⟨true, d, e, false, false⟩) ∧
    (∀ (now : Int) (s : App.ThrottleSt),
      (App.processEvent thD thN now s .disturber).2.isSome = true ↔
        (s.lastSrc ≠ 2 ∨ now - s.lastDistMs ≥ thD)) ∧
    (∀ (now : Int) (s : App.ThrottleSt),
      (App.processEvent thD thN now s .noise).2.isSome = true ↔
        (s.lastSrc ≠ 3 ∨ now - s.lastNoiseMs ≥ thN)) ∧
    (∀ (tr : List (Int × App.EvKind)) (s : App.ThrottleSt),
      (App.runEvents thD thN s tr).1.lastSrc =
        App.lastFwdSrc s.lastSrc (tr.zip (App.runEvents thD thN s tr).2) ∧
      (App.runEvents thD thN s tr).1.lastDistMs =
        App.lastFwdTime 2 s.lastDistMs (tr.zip (App.runEvents thD thN s tr).2) ∧
      (App.runEvents thD thN s tr).1.lastNoiseMs =
        App.lastFwdTime 3 s.lastNoiseMs (tr.zip (App.runEvents thD thN s tr).2)) ∧
    ((App.runEvents App.THROTTLE_DIST_MS App.THROTTLE_NOISE_MS ⟨0, 0, 0⟩
        [(100, .disturber), (200, .disturber), (600100, .disturber)]).2.map
          Option.isSome = [true, false, true]) := by
  refine ⟨?_, ?_, ?_, runEvents_state thD thN, by decide⟩
  · intro now s d e
    rfl
  · intro now s
    by_cases hc : now - s.lastDistMs ≥ thD ∨ s.lastSrc ≠ 2
    · simp only [App.processEvent, if_pos hc]
      simpa using Or.symm hc
    · simp only [App.processEvent, if_neg hc]
      simp only [Option.isSome_none, Bool.false_eq_true, false_iff]
      intro h
      exact hc (Or.symm h)
  · intro now s
    by_cases hc : now - s.lastNoiseMs ≥ thN ∨ s.lastSrc ≠ 3
    · simp only [App.processEvent, if_pos hc]
      simpa using Or.symm hc
    · simp only [App.processEvent, if_neg hc]
      simp only [Option.isSome_none, Bool.false_eq_true, false_iff]
      intro h
      exact hc (Or.symm h)

/-- C4 witness: with the default windows, a Lightning event at any state is
forwarded with its distance and energy; a Disturber 100 ms after a forwarded
Disturber is suppressed; a Disturber a full window after the last forwarded
Disturber is forwarded. -/
theorem run_throttle_spec_witness :
    (App.processEvent 600000 600000 50 ⟨0, 0, 0⟩ (.lightning 5 123)).2 =
      some ⟨true, 5, 123, false, false⟩ ∧
    (App.processEvent 600000 600000 100 ⟨2, 0, 0⟩ .disturber).2.isSome = false ∧
    (App.processEvent 600000 600000 600000 ⟨2, 0, 0⟩ .disturber).2.isSome
      = true := by
  have h1 := (run_throttle_spec 600000 600000).1 50 ⟨0, 0, 0⟩ 5 123
  have h2 := (run_throttle_spec 600000 600000).2.1 100 ⟨2, 0, 0⟩
  have h3 := (run_throttle_spec 600000 600000).2.1 600000 ⟨2, 0, 0⟩
  refine ⟨h1, ?_, h3.mpr (Or.inr (by decide))⟩
  have hno : ¬((2 : Nat) ≠ 2 ∨ (100 : Int) - 0 ≥ 600000) := by decide
  cases hb : (App.processEvent 600000 600000 100 ⟨2, 0, 0⟩ .disturber).2.isSome
  · rfl
  · exact absurd (h2.mp hb) hno

/-- C5 counterexample: with the default windows and keepalive interval, run
one iteration at t = 100 ms with a Lightning event — the loop forwards the
alert-ON payload `⟨true, 5, 123, false, false⟩`, which is then the last known
aggregate state — and a second iteration at t = 900000 ms (the 15-minute
keepalive default) with no events.  The keepalive forwards the fixed neutral
payload `⟨false, 0, 0, false, false⟩`, which differs from the last known
aggregate state: the claim that the keepalive "forwards the last known
aggregate state" is false on the code. -/
theorem keepalive_counterexample :
    (App.loopIter App.THROTTLE_DIST_MS App.THROTTLE_NOISE_MS App.KEEPALIVE_MS
        ⟨⟨0, 0, 0⟩, 0⟩ 100 [.lightning 5 123]).2 =
      [⟨true, 5, 123, false, false⟩] ∧
    (App.loopIter App.THROTTLE_DIST_MS App.THROTTLE_NOISE_MS App.KEEPALIVE_MS
        ((App.loopIter App.THROTTLE_DIST_MS App.THROTTLE_NOISE_MS
          App.KEEPALIVE_MS ⟨⟨0, 0, 0⟩, 0⟩ 100 [.lightning 5 123]).1)
        900000 []).2 = [App.keepaliveNeutral] ∧
    App.keepaliveNeutral ≠ (⟨true, 5, 123, false, false⟩ : App.Publication) := by
  decide

/-- C5 (amended): whenever the configured keepalive interval elapses while
the service loop runs, the loop forwards the fixed neutral idle payload
(alert OFF, distance 0, energy 0, disturber false, noise false) to the
publish sink — not the last known aggregate state — even though no new
events have arrived, and resets the keepalive timestamp; when the interval
has not elapsed and no events arrive, nothing is forwarded and the timestamp
is kept; and even in an iteration with events, an elapsed interval appends
the neutral keepalive publication after the event publications and resets
the timestamp. -/
theorem keepalive_spec (thD thN keepMs : Int) (s : App.LoopSt) (now : Int) :
    (now - s.lastKeepMs ≥ keepMs →
      App.loopIter thD thN keepMs s now [] =
        (⟨s.thr, now⟩, [App.keepaliveNeutral])) ∧
    (¬(now - s.lastKeepMs ≥ keepMs) →
      App.loopIter thD thN keepMs s now [] = (⟨s.thr, s.lastKeepMs⟩, [])) ∧
    (∀ events, now - s.lastKeepMs ≥ keepMs →
      ∃ ps, (App.loopIter thD thN keepMs s now events).2 =
          ps ++ [App.keepaliveNeutral] ∧
        (App.loopIter thD thN keepMs s now events).1.lastKeepMs = now) := by
  refine ⟨?_, ?_, ?_⟩
  · intro h
    simp [App.loopIter, App.runEvents, if_pos h]
  · intro h
    simp [App.loopIter, App.runEvents, if_neg h]
  · intro events h
    refine ⟨((App.runEvents thD thN s.thr
      (events.map (fun e => (now, e)))).2.filterMap id), ?_, ?_⟩
    · simp [App.loopIter, if_pos h]
    · simp [App.loopIter, if_pos h]

/-- C5 witness: at the default 15-minute interval, an event-free iteration at
t = 900000 ms starting from a keepalive timestamp of 0 publishes exactly the
neutral payload and resets the timestamp; an event-free iteration at
t = 100 ms publishes nothing. -/
theorem keepalive_spec_witness :
    App.loopIter 600000 600000 900000 ⟨⟨0, 0, 0⟩, 0⟩ 900000 [] =
      (⟨⟨0, 0, 0⟩, 900000⟩, [App.keepaliveNeutral]) ∧
    App.loopIter 600000 600000 900000 ⟨⟨0, 0, 0⟩, 0⟩ 100 [] =
      (⟨⟨0, 0, 0⟩, 0⟩, []) :=
  ⟨(keepalive_spec 600000 600000 900000 ⟨⟨0, 0, 0⟩, 0⟩ 900000).1 (by decide),
   (keepalive_spec 600000 600000 900000 ⟨⟨0, 0, 0⟩, 0⟩ 100).2.1 (by decide)⟩
